import Mathlib

/-!
Verification of the client-side HTTP access layer in
`src/web/src/services/api.ts` (class `API`): the shared dispatch routine
(`API.fetch`), the path helpers (`getLocalePath`, `getClipPath`,
`forLocale`) and the per-endpoint wrapper methods.

The embedding is shallow: JavaScript runtime values that flow through the
module (JSON-able values, blobs, header objects) are modelled as Lean
inductive types, `JSON.stringify` / `JSON.parse` as executable functions
over those values, and the dispatch routine as a pure function from its
inputs (path, options, the user/locale state, and the network response)
to the outgoing request, the performed side effects and the settled
promise outcome.
-/

namespace VoiceWeb

/-- JSON-able JavaScript values, the domain of request/response bodies
handled by the module (numbers restricted to integers, which covers every
value this module passes: counts, flags, strings, plain objects). -/
inductive JsonVal where
  | jnull
  | jbool (b : Bool)
  | jnum (n : Int)
  | jstr (s : String)
  | jarr (elems : List JsonVal)
  | jobj (fields : List (String × JsonVal))
deriving Repr

/-- JavaScript truthiness of a JSON-able value (`null`, `false`, `0` and
`""` are falsy; arrays and objects are always truthy). -/
def jsTruthy : JsonVal → Bool
  | .jnull => false
  | .jbool b => b
  | .jnum n => decide (n ≠ 0)
  | .jstr s => decide (s ≠ "")
  | .jarr _ => true
  | .jobj _ => true

/-- Decimal digit character for a digit value `d < 10`. -/
def digitChar (d : Nat) : Char := Char.ofNat (48 + d)

/-- Lowercase hexadecimal digit character for a value `n < 16`, as
produced by `JSON.stringify` in `\u00xx` escapes. -/
def hexDigitChar (n : Nat) : Char :=
  if n < 10 then Char.ofNat (48 + n) else Char.ofNat (87 + n)

/-- Decimal representation of a natural number, as `String(n)` /
`JSON.stringify(n)` produce it. -/
def serNat (n : Nat) : List Char :=
  if n = 0 then ['0'] else (Nat.digits 10 n).reverse.map digitChar

/-- Decimal representation of an integer (minus sign for negatives). -/
def serInt : Int → List Char
  | .ofNat n => serNat n
  | .negSucc m => '-' :: serNat (m + 1)

/-- The escape sequence `JSON.stringify` emits for one character of a
string: `\"`, `\\`, the named control escapes, `\u00xx` for the other
control characters, and the character itself otherwise. -/
def escChar (c : Char) : List Char :=
  if c = '"' then ['\\', '"']
  else if c = '\\' then ['\\', '\\']
  else if c = Char.ofNat 8 then ['\\', 'b']
  else if c = Char.ofNat 9 then ['\\', 't']
  else if c = Char.ofNat 10 then ['\\', 'n']
  else if c = Char.ofNat 12 then ['\\', 'f']
  else if c = Char.ofNat 13 then ['\\', 'r']
  else if c.toNat < 32 then
    ['\\', 'u', '0', '0', hexDigitChar (c.toNat / 16), hexDigitChar (c.toNat % 16)]
  else [c]

/-- Body of a JSON string literal: every character escaped. -/
def serStr : List Char → List Char
  | [] => []
  | c :: cs => escChar c ++ serStr cs

mutual

/-- Characters of `JSON.stringify` applied to a JSON-able value. -/
def serVal : JsonVal → List Char
  | .jnull => ['n', 'u', 'l', 'l']
  | .jbool true => ['t', 'r', 'u', 'e']
  | .jbool false => ['f', 'a', 'l', 's', 'e']
  | .jnum n => serInt n
  | .jstr s => '"' :: (serStr s.data ++ ['"'])
  | .jarr [] => ['[', ']']
  | .jarr (x :: xs) => '[' :: (serElems x xs ++ [']'])
  | .jobj [] => ['\x7b', '\x7d']
  | .jobj (kv :: kvs) => '\x7b' :: (serMembers kv kvs ++ ['\x7d'])
termination_by v => sizeOf v
decreasing_by all_goals (simp_wf <;> omega)

/-- Comma-separated serialization of a nonempty list of array elements. -/
def serElems : JsonVal → List JsonVal → List Char
  | x, [] => serVal x
  | x, y :: ys => serVal x ++ ',' :: serElems y ys
termination_by x xs => 1 + sizeOf x + sizeOf xs
decreasing_by all_goals (simp_wf <;> omega)

/-- Comma-separated serialization of a nonempty list of object members. -/
def serMembers : String × JsonVal → List (String × JsonVal) → List Char
  | kv, [] => serMember kv
  | kv, kv' :: kvs => serMember kv ++ ',' :: serMembers kv' kvs
termination_by kv kvs => 1 + sizeOf kv + sizeOf kvs
decreasing_by all_goals (simp_wf <;> omega)

/-- One object member: quoted key, colon, value. -/
def serMember : String × JsonVal → List Char
  | (k, v) => '"' :: (serStr k.data ++ '"' :: ':' :: serVal v)
termination_by kv => sizeOf kv
decreasing_by all_goals (simp_wf <;> omega)

end

/-- The characters of `JSON.stringify`, packaged as a string. -/
def jsonStringify (v : JsonVal) : String := ⟨serVal v⟩

/-- Whether a character is a decimal digit. -/
def isDigitC (c : Char) : Bool := decide (48 ≤ c.toNat) && decide (c.toNat ≤ 57)

/-- Maximal prefix of decimal digits, returned as digit values
(most significant first) together with the remaining input. -/
def readDigits : List Char → List Nat × List Char
  | [] => ([], [])
  | c :: cs =>
    if isDigitC c then
      let (ds, r) := readDigits cs
      ((c.toNat - 48) :: ds, r)
    else ([], c :: cs)

/-- Reader for a JSON integer literal (optional minus sign followed by a
nonempty digit run). -/
def parseNum : List Char → Option (Int × List Char)
  | [] => none
  | c :: cs =>
    if c = '-' then
      match readDigits cs with
      | ([], _) => none
      | (ds, r) => some (-(Nat.ofDigits 10 ds.reverse : Nat), r)
    else
      match readDigits (c :: cs) with
      | ([], _) => none
      | (ds, r) => some ((Nat.ofDigits 10 ds.reverse : Nat), r)

/-- Value of a hexadecimal digit character. -/
def hexVal (c : Char) : Option Nat :=
  if 48 ≤ c.toNat ∧ c.toNat ≤ 57 then some (c.toNat - 48)
  else if 97 ≤ c.toNat ∧ c.toNat ≤ 102 then some (c.toNat - 87)
  else if 65 ≤ c.toNat ∧ c.toNat ≤ 70 then some (c.toNat - 55)
  else none

/-- Reader for the body of a JSON string literal, positioned after the
opening quote; returns the decoded characters and the input remaining
after the closing quote. Raw control characters are rejected, escape
sequences (`\"`, `\\`, `\/`, `\b`, `\f`, `\n`, `\r`, `\t`, `\uXXXX`)
are decoded. -/
def parseStrBody : List Char → Option (List Char × List Char)
  | [] => none
  | c :: cs =>
    if c = '"' then some ([], cs)
    else if c = '\\' then
      match cs with
      | [] => none
      | e :: cs' =>
        if e = '"' then (parseStrBody cs').map fun p => ('"' :: p.1, p.2)
        else if e = '\\' then (parseStrBody cs').map fun p => ('\\' :: p.1, p.2)
        else if e = '/' then (parseStrBody cs').map fun p => ('/' :: p.1, p.2)
        else if e = 'b' then (parseStrBody cs').map fun p => (Char.ofNat 8 :: p.1, p.2)
        else if e = 'f' then (parseStrBody cs').map fun p => (Char.ofNat 12 :: p.1, p.2)
        else if e = 'n' then (parseStrBody cs').map fun p => (Char.ofNat 10 :: p.1, p.2)
        else if e = 'r' then (parseStrBody cs').map fun p => (Char.ofNat 13 :: p.1, p.2)
        else if e = 't' then (parseStrBody cs').map fun p => (Char.ofNat 9 :: p.1, p.2)
        else if e = 'u' then
          match cs' with
          | h1 :: h2 :: h3 :: h4 :: cs'' =>
            match hexVal h1, hexVal h2, hexVal h3, hexVal h4 with
            | some a, some b, some x, some y =>
              (parseStrBody cs'').map fun p =>
                (Char.ofNat (a * 4096 + b * 256 + x * 16 + y) :: p.1, p.2)
            | _, _, _, _ => none
          | _ => none
        else none
    else if c.toNat < 32 then none
    else (parseStrBody cs).map fun p => (c :: p.1, p.2)
termination_by cs => cs.length
decreasing_by all_goals (simp_wf <;> omega)

mutual

/-- Fueled reader for one canonical JSON value (the grammar produced by
`JSON.stringify`: no whitespace, integer numerals); the fuel bounds the
nesting depth of arrays and objects. -/
def parseVal : Nat → List Char → Option (JsonVal × List Char)
  | 0, _ => none
  | _ + 1, [] => none
  | f + 1, c :: cs =>
    if c = 'n' then
      match cs with
      | 'u' :: 'l' :: 'l' :: r => some (.jnull, r)
      | _ => none
    else if c = 't' then
      match cs with
      | 'r' :: 'u' :: 'e' :: r => some (.jbool true, r)
      | _ => none
    else if c = 'f' then
      match cs with
      | 'a' :: 'l' :: 's' :: 'e' :: r => some (.jbool false, r)
      | _ => none
    else if c = '"' then
      (parseStrBody cs).map fun p => (.jstr ⟨p.1⟩, p.2)
    else if c = '[' then
      match cs with
      | [] => none
      | d :: ds =>
        if d = ']' then some (.jarr [], ds)
        else (parseElems f (d :: ds)).map fun p => (.jarr p.1, p.2)
    else if c = '\x7b' then
      match cs with
      | [] => none
      | d :: ds =>
        if d = '\x7d' then some (.jobj [], ds)
        else (parseMembers f (d :: ds)).map fun p => (.jobj p.1, p.2)
    else if c = '-' || isDigitC c then
      (parseNum (c :: cs)).map fun p => (.jnum p.1, p.2)
    else none

/-- Fueled reader for a nonempty `,`-separated run of array elements,
consuming the closing `]`. -/
def parseElems : Nat → List Char → Option (List JsonVal × List Char)
  | 0, _ => none
  | f + 1, cs =>
    match parseVal f cs with
    | none => none
    | some (v, r) =>
      match r with
      | ',' :: r' => (parseElems f r').map fun p => (v :: p.1, p.2)
      | ']' :: r' => some ([v], r')
      | _ => none

/-- Fueled reader for a nonempty `,`-separated run of object members,
consuming the closing brace. -/
def parseMembers : Nat → List Char → Option (List (String × JsonVal) × List Char)
  | 0, _ => none
  | f + 1, cs =>
    match cs with
    | '"' :: cs' =>
      match parseStrBody cs' with
      | none => none
      | some (k, r) =>
        match r with
        | ':' :: r' =>
          match parseVal f r' with
          | none => none
          | some (v, r'') =>
            match r'' with
            | ',' :: r3 => (parseMembers f r3).map fun p => ((⟨k⟩, v) :: p.1, p.2)
            | '\x7d' :: r3 => some ([(⟨k⟩, v)], r3)
            | _ => none
        | _ => none
    | _ => none

end

/-- Reader for `JSON.parse` on the canonical texts produced by `JSON.stringify`:
reads one value and requires the whole input to be consumed. The fuel
`s.length + 1` dominates the nesting depth of any value serialized into
`s`. -/
def parseJson (s : String) : Option JsonVal :=
  match parseVal (s.length + 1) s.data with
  | some (v, []) => some v
  | _ => none

/-! ### Round-trip of the JSON encoding

`parseJson (jsonStringify v) = some v` justifies the spec's reading of
case (3) of the body-encoding policy: the serialized body is JSON text
whose parse equals the structured input. -/

lemma toNat_ofNat_lt {n : Nat} (h : n < 0xd800) : (Char.ofNat n).toNat = n := by
  simp only [Char.ofNat, Char.toNat]
  split
  · rfl
  · next hh =>
    exfalso; apply hh
    exact Or.inl (by exact_mod_cast h)

lemma digitChar_toNat {d : Nat} (h : d < 10) : (digitChar d).toNat = 48 + d :=
  toNat_ofNat_lt (by omega)

lemma isDigitC_digitChar {d : Nat} (h : d < 10) : isDigitC (digitChar d) = true := by
  simp only [isDigitC, digitChar_toNat h, Bool.and_eq_true, decide_eq_true_eq]
  omega

lemma digitChar_sub {d : Nat} (h : d < 10) : (digitChar d).toNat - 48 = d := by
  rw [digitChar_toNat h]; omega

/-- The input after a serialized number must not continue with a digit;
in serialized composites the next character is always `,`, `]`, a closing
brace, or the end of input. -/
def headSafe : List Char → Bool
  | [] => true
  | c :: _ => !isDigitC c

lemma readDigits_map : ∀ (ds : List Nat) (rest : List Char), (∀ d ∈ ds, d < 10) →
    headSafe rest = true → readDigits (ds.map digitChar ++ rest) = (ds, rest)
  | [], rest, _, hrest => by
    cases rest with
    | nil => rfl
    | cons c t =>
      have hc : isDigitC c = false := by
        simpa [headSafe] using hrest
      simp [readDigits, hc]
  | d :: ds, rest, h, hrest => by
    have hd : d < 10 := h d (by simp)
    have ih := readDigits_map ds rest (fun x hx => h x (by simp [hx])) hrest
    simp [readDigits, isDigitC_digitChar hd, List.append_eq, ih, digitChar_sub hd]

lemma digits_all_lt (n : Nat) : ∀ d ∈ Nat.digits 10 n, d < 10 :=
  fun _ hd => Nat.digits_lt_base (by norm_num) hd

lemma serNat_eq_map (n : Nat) :
    serNat n = ((Nat.digits 10 n).reverse.map digitChar) ∨ (n = 0 ∧ serNat n = ['0']) := by
  by_cases h : n = 0
  · exact Or.inr ⟨h, by simp [serNat, h]⟩
  · exact Or.inl (by simp [serNat, h])

lemma readDigits_serNat {n : Nat} (hn : n ≠ 0) (rest : List Char)
    (hrest : headSafe rest = true) :
    readDigits (serNat n ++ rest) = ((Nat.digits 10 n).reverse, rest) := by
  rw [serNat, if_neg hn]
  exact readDigits_map _ rest (fun d hd => digits_all_lt n d (List.mem_reverse.mp hd)) hrest

lemma parseNum_serNat (n : Nat) (rest : List Char) (hrest : headSafe rest = true) :
    parseNum (serNat n ++ rest) = some ((n : Int), rest) := by
  by_cases hn : n = 0
  · subst hn
    have h0 : serNat 0 = ['0'] := rfl
    rw [h0]
    simp [parseNum, readDigits, isDigitC, Nat.ofDigits]
    cases rest with
    | nil => simp [readDigits]
    | cons c t =>
      have hc : isDigitC c = false := by simpa [headSafe] using hrest
      simp [readDigits, hc, Nat.ofDigits]
  · obtain ⟨d, ds, hds⟩ := List.exists_cons_of_ne_nil
      (show (Nat.digits 10 n).reverse.map digitChar ≠ [] by
        simp [Nat.digits_ne_nil_iff_ne_zero.mpr hn])
    have hser : serNat n = d :: ds := by rw [serNat, if_neg hn, hds]
    have hread : readDigits (serNat n ++ rest) = ((Nat.digits 10 n).reverse, rest) :=
      readDigits_serNat hn rest hrest
    have hdigit : isDigitC d = true := by
      have : d ∈ (Nat.digits 10 n).reverse.map digitChar := by rw [hds]; simp
      obtain ⟨x, hx, hxd⟩ := List.mem_map.mp this
      subst hxd
      exact isDigitC_digitChar (digits_all_lt n x (List.mem_reverse.mp hx))
    have hnotminus : d ≠ '-' := by
      rintro rfl
      exact absurd hdigit (by decide)
    rw [hser, List.cons_append, parseNum, if_neg hnotminus, ← List.cons_append, ← hser, hread]
    have hne : (Nat.digits 10 n).reverse ≠ [] := by
      simp [Nat.digits_ne_nil_iff_ne_zero.mpr hn]
    obtain ⟨e, es, hes⟩ := List.exists_cons_of_ne_nil hne
    rw [hes]
    have hof : Nat.ofDigits 10 (es.reverse ++ [e]) = n := by
      rw [← List.reverse_cons, ← hes, List.reverse_reverse, Nat.ofDigits_digits]
    simp [hof]

lemma parseNum_serInt (i : Int) (rest : List Char) (hrest : headSafe rest = true) :
    parseNum (serInt i ++ rest) = some (i, rest) := by
  cases i with
  | ofNat n => exact parseNum_serNat n rest hrest
  | negSucc m =>
    show parseNum ('-' :: (serNat (m + 1) ++ rest)) = _
    rw [parseNum, if_pos rfl, readDigits_serNat (Nat.succ_ne_zero m) rest hrest]
    have hne : (Nat.digits 10 (m + 1)).reverse ≠ [] := by
      simp [Nat.digits_ne_nil_iff_ne_zero.mpr (Nat.succ_ne_zero m)]
    obtain ⟨e, es, hes⟩ := List.exists_cons_of_ne_nil hne
    rw [hes]
    have hof : Nat.ofDigits 10 (es.reverse ++ [e]) = m + 1 := by
      rw [← List.reverse_cons, ← hes, List.reverse_reverse, Nat.ofDigits_digits]
    simp [hof, Int.negSucc_eq]

lemma hexVal_hexDigitChar {n : Nat} (h : n < 16) : hexVal (hexDigitChar n) = some n := by
  unfold hexVal hexDigitChar
  by_cases h10 : n < 10
  · rw [if_pos h10, toNat_ofNat_lt (show 48 + n < 0xd800 by omega),
      if_pos (show 48 ≤ 48 + n ∧ 48 + n ≤ 57 by omega)]
    congr 1
    omega
  · rw [if_neg h10, toNat_ofNat_lt (show 87 + n < 0xd800 by omega),
      if_neg (show ¬(48 ≤ 87 + n ∧ 87 + n ≤ 57) by omega),
      if_pos (show 97 ≤ 87 + n ∧ 87 + n ≤ 102 by omega)]
    congr 1
    omega

lemma parseStrBody_serStr : ∀ (s rest : List Char),
    parseStrBody (serStr s ++ '"' :: rest) = some (s, rest)
  | [], rest => by
    rw [show serStr [] ++ '"' :: rest = '"' :: rest by simp [serStr]]
    rw [parseStrBody.eq_def]
    simp
  | c :: s, rest => by
    have ih := parseStrBody_serStr s rest
    have hshape : serStr (c :: s) ++ '"' :: rest = escChar c ++ (serStr s ++ '"' :: rest) := by
      simp [serStr]
    rw [hshape]
    by_cases h1 : c = '"'
    · subst h1; simp only [escChar, if_pos rfl]
      rw [parseStrBody.eq_def]; simp [ih]
    by_cases h2 : c = '\\'
    · subst h2; simp only [escChar]
      rw [parseStrBody.eq_def]; simp [ih]
    by_cases h3 : c = Char.ofNat 8
    · subst h3; simp only [escChar]
      rw [parseStrBody.eq_def]; simp [ih]
    by_cases h4 : c = Char.ofNat 9
    · subst h4; simp only [escChar]
      rw [parseStrBody.eq_def]; simp [ih]
    by_cases h5 : c = Char.ofNat 10
    · subst h5; simp only [escChar]
      rw [parseStrBody.eq_def]; simp [ih]
    by_cases h6 : c = Char.ofNat 12
    · subst h6; simp only [escChar]
      rw [parseStrBody.eq_def]; simp [ih]
    by_cases h7 : c = Char.ofNat 13
    · subst h7; simp only [escChar]
      rw [parseStrBody.eq_def]; simp [ih]
    by_cases h8 : c.toNat < 32
    · have hhi := hexVal_hexDigitChar (show c.toNat / 16 < 16 by omega)
      have hlo := hexVal_hexDigitChar (show c.toNat % 16 < 16 by omega)
      have h00 : hexVal '0' = some 0 := by decide
      have hdm : c.toNat / 16 * 16 + c.toNat % 16 = c.toNat := by omega
      simp only [escChar, h1, h2, h3, h4, h5, h6, h7, if_neg, if_pos h8, ite_false]
      rw [parseStrBody.eq_def]
      simp [hhi, hlo, h00, hdm, Char.ofNat_toNat, ih]
    · simp only [escChar, h1, h2, h3, h4, h5, h6, h7, h8, ite_false]
      rw [parseStrBody.eq_def]
      simp [h1, h2, h8, ih]

mutual

/-- Fuel needed by `parseVal` to read back a serialized value (one unit
per nesting step into an array or object). -/
def jsize : JsonVal → Nat
  | .jnull => 1
  | .jbool _ => 1
  | .jnum _ => 1
  | .jstr _ => 1
  | .jarr [] => 1
  | .jarr (x :: xs) => 1 + jsizeElems x xs
  | .jobj [] => 1
  | .jobj (kv :: kvs) => 1 + jsizeMembers kv kvs
termination_by v => sizeOf v
decreasing_by all_goals (simp_wf <;> omega)

/-- Fuel needed by `parseElems` for a nonempty element list. -/
def jsizeElems : JsonVal → List JsonVal → Nat
  | x, [] => 1 + jsize x
  | x, y :: ys => 1 + jsize x + jsizeElems y ys
termination_by x xs => 1 + sizeOf x + sizeOf xs
decreasing_by all_goals (simp_wf <;> omega)

/-- Fuel needed by `parseMembers` for a nonempty member list. -/
def jsizeMembers : String × JsonVal → List (String × JsonVal) → Nat
  | (_, v), [] => 1 + jsize v
  | (_, v), kv :: kvs => 1 + jsize v + jsizeMembers kv kvs
termination_by kv kvs => 1 + sizeOf kv + sizeOf kvs
decreasing_by all_goals (simp_wf <;> omega)

end

lemma serVal_jnull : serVal .jnull = ['n', 'u', 'l', 'l'] := by rw [serVal.eq_def]

lemma serVal_jtrue : serVal (.jbool true) = ['t', 'r', 'u', 'e'] := by rw [serVal.eq_def]

lemma serVal_jfalse : serVal (.jbool false) = ['f', 'a', 'l', 's', 'e'] := by rw [serVal.eq_def]

lemma serVal_jnum (i : Int) : serVal (.jnum i) = serInt i := by rw [serVal.eq_def]

lemma serVal_jstr (s : String) : serVal (.jstr s) = '"' :: (serStr s.data ++ ['"']) := by
  rw [serVal.eq_def]

lemma serVal_jarr_nil : serVal (.jarr []) = ['[', ']'] := by rw [serVal.eq_def]

lemma serVal_jarr_cons (x : JsonVal) (xs : List JsonVal) :
    serVal (.jarr (x :: xs)) = '[' :: (serElems x xs ++ [']']) := by rw [serVal.eq_def]

lemma serVal_jobj_nil : serVal (.jobj []) = ['\x7b', '\x7d'] := by rw [serVal.eq_def]

lemma serVal_jobj_cons (kv : String × JsonVal) (kvs : List (String × JsonVal)) :
    serVal (.jobj (kv :: kvs)) = '\x7b' :: (serMembers kv kvs ++ ['\x7d']) := by
  rw [serVal.eq_def]

lemma serElems_nil (x : JsonVal) : serElems x [] = serVal x := by rw [serElems.eq_def]

lemma serElems_cons (x y : JsonVal) (ys : List JsonVal) :
    serElems x (y :: ys) = serVal x ++ ',' :: serElems y ys := by rw [serElems.eq_def]

lemma serMembers_nil (kv : String × JsonVal) : serMembers kv [] = serMember kv := by
  rw [serMembers.eq_def]

lemma serMembers_cons (kv kv' : String × JsonVal) (kvs : List (String × JsonVal)) :
    serMembers kv (kv' :: kvs) = serMember kv ++ ',' :: serMembers kv' kvs := by
  rw [serMembers.eq_def]

lemma serMember_eq (k : String) (v : JsonVal) :
    serMember (k, v) = '"' :: (serStr k.data ++ '"' :: ':' :: serVal v) := by
  rw [serMember.eq_def]

lemma jsize_pos (v : JsonVal) : 1 ≤ jsize v := by
  rw [jsize.eq_def]; split <;> omega

lemma jsizeElems_pos (x : JsonVal) (xs : List JsonVal) : 1 ≤ jsizeElems x xs := by
  rw [jsizeElems.eq_def]; split <;> omega

lemma jsizeMembers_pos (kv : String × JsonVal) (kvs : List (String × JsonVal)) :
    1 ≤ jsizeMembers kv kvs := by
  rw [jsizeMembers.eq_def]; split <;> omega

lemma jsize_jarr_cons (x : JsonVal) (xs : List JsonVal) :
    jsize (.jarr (x :: xs)) = 1 + jsizeElems x xs := by rw [jsize.eq_def]

lemma jsize_jobj_cons (kv : String × JsonVal) (kvs : List (String × JsonVal)) :
    jsize (.jobj (kv :: kvs)) = 1 + jsizeMembers kv kvs := by rw [jsize.eq_def]

lemma jsizeElems_nil (x : JsonVal) : jsizeElems x [] = 1 + jsize x := by
  rw [jsizeElems.eq_def]

lemma jsizeElems_cons (x y : JsonVal) (ys : List JsonVal) :
    jsizeElems x (y :: ys) = 1 + jsize x + jsizeElems y ys := by
  rw [jsizeElems.eq_def]

lemma jsizeMembers_nil (k : String) (v : JsonVal) : jsizeMembers (k, v) [] = 1 + jsize v := by
  rw [jsizeMembers.eq_def]

lemma jsizeMembers_cons (k : String) (v : JsonVal) (kv' : String × JsonVal)
    (kvs : List (String × JsonVal)) :
    jsizeMembers (k, v) (kv' :: kvs) = 1 + jsize v + jsizeMembers kv' kvs := by
  rw [jsizeMembers.eq_def]

lemma jsizeElems_le (x : JsonVal) (xs : List JsonVal) : 1 + jsize x ≤ jsizeElems x xs := by
  cases xs with
  | nil => rw [jsizeElems_nil]
  | cons y ys => rw [jsizeElems_cons]; have := jsizeElems_pos y ys; omega

lemma jsizeMembers_le (k : String) (v : JsonVal) (kvs : List (String × JsonVal)) :
    1 + jsize v ≤ jsizeMembers (k, v) kvs := by
  cases kvs with
  | nil => rw [jsizeMembers_nil]
  | cons kv' kvs' => rw [jsizeMembers_cons]; have := jsizeMembers_pos kv' kvs'; omega

lemma isDigitC_ne {c : Char} (hc : isDigitC c = true) :
    c ≠ 'n' ∧ c ≠ 't' ∧ c ≠ 'f' ∧ c ≠ '"' ∧ c ≠ '[' ∧ c ≠ '\x7b' := by
  refine ⟨?_, ?_, ?_, ?_, ?_, ?_⟩ <;> (rintro rfl; exact absurd hc (by decide))

/-- Characters that can begin a serialized JSON value. -/
def goodStart (c : Char) : Bool :=
  c = 'n' || c = 't' || c = 'f' || c = '"' || c = '[' || c = '\x7b' || c = '-' || isDigitC c

lemma goodStart_ne_rbracket {c : Char} (h : goodStart c = true) : c ≠ ']' := by
  rintro rfl
  exact absurd h (by decide)

lemma serNat_starts (n : Nat) : ∃ c t, serNat n = c :: t ∧ isDigitC c = true := by
  by_cases hn : n = 0
  · subst hn
    exact ⟨'0', [], rfl, by decide⟩
  · have hne : (Nat.digits 10 n).reverse ≠ [] := by
      simp [Nat.digits_ne_nil_iff_ne_zero.mpr hn]
    obtain ⟨d, ds, hds⟩ := List.exists_cons_of_ne_nil hne
    refine ⟨digitChar d, ds.map digitChar, ?_, ?_⟩
    · rw [serNat, if_neg hn, hds]; simp
    · have hd : d < 10 := digits_all_lt n d (by rw [← List.mem_reverse, hds]; simp)
      exact isDigitC_digitChar hd

lemma serVal_starts (v : JsonVal) : ∃ c t, serVal v = c :: t ∧ goodStart c = true := by
  cases v with
  | jnull => exact ⟨'n', _, serVal_jnull, by decide⟩
  | jbool b =>
    cases b with
    | true => exact ⟨'t', _, serVal_jtrue, by decide⟩
    | false => exact ⟨'f', _, serVal_jfalse, by decide⟩
  | jnum i =>
    cases i with
    | ofNat n =>
      obtain ⟨c, t, hct, hc⟩ := serNat_starts n
      exact ⟨c, t, by rw [serVal_jnum]; exact hct, by simp [goodStart, hc]⟩
    | negSucc m =>
      exact ⟨'-', _, by rw [serVal_jnum]; rfl, by decide⟩
  | jstr s => exact ⟨'"', _, serVal_jstr s, by decide⟩
  | jarr xs =>
    cases xs with
    | nil => exact ⟨'[', _, serVal_jarr_nil, by decide⟩
    | cons x xs => exact ⟨'[', _, serVal_jarr_cons x xs, by decide⟩
  | jobj kvs =>
    cases kvs with
    | nil => exact ⟨'\x7b', _, serVal_jobj_nil, by decide⟩
    | cons kv kvs => exact ⟨'\x7b', _, serVal_jobj_cons kv kvs, by decide⟩

lemma string_eta (s : String) : String.mk s.data = s := rfl

lemma headSafe_cons (c : Char) (t : List Char) : headSafe (c :: t) = !isDigitC c := rfl

lemma parseVal_num (f : Nat) (c : Char) (cs : List Char)
    (hc : c = '-' ∨ isDigitC c = true) :
    parseVal (f + 1) (c :: cs) = (parseNum (c :: cs)).map fun p => (.jnum p.1, p.2) := by
  rcases hc with rfl | hd
  · rw [parseVal.eq_def]; simp
  · obtain ⟨hn, ht, hf, hq, hbr, hbc⟩ := isDigitC_ne hd
    rw [parseVal.eq_def]
    simp [hn, ht, hf, hq, hbr, hbc, hd]

lemma parseVal_quote (f : Nat) (cs : List Char) :
    parseVal (f + 1) ('"' :: cs) = (parseStrBody cs).map fun p => (.jstr ⟨p.1⟩, p.2) := by
  rw [parseVal.eq_def]; simp

lemma parseVal_lbracket_cons (f : Nat) (d : Char) (ds : List Char) (hne : d ≠ ']') :
    parseVal (f + 1) ('[' :: d :: ds) =
      (parseElems f (d :: ds)).map fun p => (.jarr p.1, p.2) := by
  rw [parseVal.eq_def]; simp [hne]

lemma parseVal_lbrace_cons (f : Nat) (d : Char) (ds : List Char) (hne : d ≠ '\x7d') :
    parseVal (f + 1) ('\x7b' :: d :: ds) =
      (parseMembers f (d :: ds)).map fun p => (.jobj p.1, p.2) := by
  rw [parseVal.eq_def]; simp [hne]

lemma parse_roundtrip : ∀ fuel : Nat,
    (∀ v rest, jsize v ≤ fuel → headSafe rest = true →
      parseVal fuel (serVal v ++ rest) = some (v, rest)) ∧
    (∀ x xs rest, jsizeElems x xs ≤ fuel →
      parseElems fuel (serElems x xs ++ ']' :: rest) = some (x :: xs, rest)) ∧
    (∀ kv kvs rest, jsizeMembers kv kvs ≤ fuel →
      parseMembers fuel (serMembers kv kvs ++ '\x7d' :: rest) = some (kv :: kvs, rest)) := by
  intro fuel
  induction fuel with
  | zero =>
    refine ⟨fun v _ hs _ => absurd hs (by have := jsize_pos v; omega),
            fun x xs _ hs => absurd hs (by have := jsizeElems_pos x xs; omega),
            fun kv kvs _ hs => absurd hs (by have := jsizeMembers_pos kv kvs; omega)⟩
  | succ f IH =>
    obtain ⟨IH1, IH2, IH3⟩ := IH
    refine ⟨?_, ?_, ?_⟩
    · intro v rest hs hrest
      cases v with
      | jnull =>
        rw [serVal_jnull, parseVal.eq_def]; simp
      | jbool b =>
        cases b with
        | false => rw [serVal_jfalse, parseVal.eq_def]; simp
        | true => rw [serVal_jtrue, parseVal.eq_def]; simp
      | jnum i =>
        rw [serVal_jnum]
        cases i with
        | ofNat n =>
          obtain ⟨c, t, hct, hc⟩ := serNat_starts n
          have hser : serInt (Int.ofNat n) = serNat n := rfl
          rw [hser, hct, List.cons_append, parseVal_num f c (t ++ rest) (Or.inr hc),
            ← List.cons_append, ← hct, ← hser]
          rw [show serInt (Int.ofNat n) ++ rest = serNat n ++ rest by rw [hser]]
          rw [parseNum_serNat n rest hrest]
          rfl
        | negSucc m =>
          have hser : serInt (Int.negSucc m) = '-' :: serNat (m + 1) := rfl
          rw [hser, List.cons_append, parseVal_num f '-' _ (Or.inl rfl),
            ← List.cons_append, ← hser]
          rw [parseNum_serInt _ rest hrest]
          rfl
      | jstr s =>
        rw [serVal_jstr]
        rw [show ('"' :: (serStr s.data ++ ['"'])) ++ rest
            = '"' :: (serStr s.data ++ '"' :: rest) by simp]
        rw [parseVal_quote, parseStrBody_serStr]
        simp [string_eta]
      | jarr xs =>
        cases xs with
        | nil =>
          rw [serVal_jarr_nil, parseVal.eq_def]; simp
        | cons x xs =>
          rw [serVal_jarr_cons]
          obtain ⟨c0, t0, hct, hgs⟩ := serVal_starts x
          have hu : ∃ u, serElems x xs = c0 :: u := by
            cases xs with
            | nil => exact ⟨t0, by rw [serElems_nil, hct]⟩
            | cons y ys =>
              exact ⟨t0 ++ ',' :: serElems y ys, by rw [serElems_cons, hct]; rfl⟩
          obtain ⟨u, hu⟩ := hu
          have hne : c0 ≠ ']' := goodStart_ne_rbracket hgs
          rw [show ('[' :: (serElems x xs ++ [']'])) ++ rest
              = '[' :: c0 :: (u ++ ']' :: rest) by rw [hu]; simp]
          rw [parseVal_lbracket_cons f c0 _ hne]
          rw [show c0 :: (u ++ ']' :: rest) = serElems x xs ++ ']' :: rest by
            rw [hu]; simp]
          rw [IH2 x xs rest (by rw [jsize_jarr_cons] at hs; omega)]
          rfl
      | jobj kvs =>
        cases kvs with
        | nil =>
          rw [serVal_jobj_nil, parseVal.eq_def]; simp
        | cons kv kvs =>
          rw [serVal_jobj_cons]
          obtain ⟨k, v⟩ := kv
          have hu : ∃ u, serMembers (k, v) kvs = '"' :: u := by
            cases kvs with
            | nil => exact ⟨serStr k.data ++ '"' :: ':' :: serVal v,
                by rw [serMembers_nil, serMember_eq]⟩
            | cons kv' kvs' =>
              exact ⟨(serStr k.data ++ '"' :: ':' :: serVal v) ++ ',' :: serMembers kv' kvs',
                by rw [serMembers_cons, serMember_eq]; rfl⟩
          obtain ⟨u, hu⟩ := hu
          rw [show ('\x7b' :: (serMembers (k, v) kvs ++ ['\x7d'])) ++ rest
              = '\x7b' :: '"' :: (u ++ '\x7d' :: rest) by rw [hu]; simp]
          rw [parseVal_lbrace_cons f '"' _ (by decide)]
          rw [show ('"' : Char) :: (u ++ '\x7d' :: rest)
              = serMembers (k, v) kvs ++ '\x7d' :: rest by rw [hu]; simp]
          rw [IH3 (k, v) kvs rest (by rw [jsize_jobj_cons] at hs; omega)]
          rfl
    · intro x xs rest hs
      cases xs with
      | nil =>
        rw [serElems_nil, parseElems.eq_def]
        have h1 : parseVal f (serVal x ++ ']' :: rest) = some (x, ']' :: rest) :=
          IH1 x (']' :: rest) (by rw [jsizeElems_nil] at hs; omega)
            (by rw [headSafe_cons]; decide)
        simp [h1]
      | cons y ys =>
        rw [serElems_cons]
        rw [show (serVal x ++ ',' :: serElems y ys) ++ ']' :: rest
            = serVal x ++ (',' :: (serElems y ys ++ ']' :: rest)) by simp]
        rw [parseElems.eq_def]
        have hsz := jsizeElems_cons x y ys
        have h1 : parseVal f (serVal x ++ ',' :: (serElems y ys ++ ']' :: rest))
            = some (x, ',' :: (serElems y ys ++ ']' :: rest)) :=
          IH1 x _ (by rw [hsz] at hs; have := jsizeElems_pos y ys; omega)
            (by rw [headSafe_cons]; decide)
        have h2 : parseElems f (serElems y ys ++ ']' :: rest) = some (y :: ys, rest) :=
          IH2 y ys rest (by rw [hsz] at hs; have := jsize_pos x; omega)
        simp [h1, h2]
    · intro kv kvs rest hs
      obtain ⟨k, v⟩ := kv
      cases kvs with
      | nil =>
        rw [serMembers_nil, serMember_eq]
        rw [show ('"' :: (serStr k.data ++ '"' :: ':' :: serVal v)) ++ '\x7d' :: rest
            = '"' :: (serStr k.data ++ '"' :: (':' :: (serVal v ++ '\x7d' :: rest))) by simp]
        rw [parseMembers.eq_def]
        have hstr := parseStrBody_serStr k.data (':' :: (serVal v ++ '\x7d' :: rest))
        have hv : parseVal f (serVal v ++ '\x7d' :: rest) = some (v, '\x7d' :: rest) :=
          IH1 v _ (by rw [jsizeMembers_nil] at hs; omega) (by rw [headSafe_cons]; decide)
        simp [hstr, hv, string_eta]
      | cons kv' kvs' =>
        rw [serMembers_cons, serMember_eq]
        rw [show (('"' :: (serStr k.data ++ '"' :: ':' :: serVal v)) ++ ',' :: serMembers kv' kvs') ++ '\x7d' :: rest
            = '"' :: (serStr k.data ++ '"' :: (':' :: (serVal v ++ ',' :: (serMembers kv' kvs' ++ '\x7d' :: rest)))) by simp]
        rw [parseMembers.eq_def]
        have hsz := jsizeMembers_cons k v kv' kvs'
        have hstr := parseStrBody_serStr k.data
          (':' :: (serVal v ++ ',' :: (serMembers kv' kvs' ++ '\x7d' :: rest)))
        have hv : parseVal f (serVal v ++ ',' :: (serMembers kv' kvs' ++ '\x7d' :: rest))
            = some (v, ',' :: (serMembers kv' kvs' ++ '\x7d' :: rest)) :=
          IH1 v _ (by rw [hsz] at hs; have := jsizeMembers_pos kv' kvs'; omega)
            (by rw [headSafe_cons]; decide)
        have hm : parseMembers f (serMembers kv' kvs' ++ '\x7d' :: rest)
            = some (kv' :: kvs', rest) :=
          IH3 kv' kvs' rest (by rw [hsz] at hs; have := jsize_pos v; omega)
        simp [hstr, hv, hm, string_eta]

lemma serNat_ne_nil (n : Nat) : serNat n ≠ [] := by
  obtain ⟨c, t, hct, _⟩ := serNat_starts n
  simp [hct]

mutual

lemma jsize_le_len : ∀ v : JsonVal, jsize v ≤ (serVal v).length
  | .jnull => by rw [jsize.eq_def, serVal_jnull]; simp
  | .jbool b => by
    cases b with
    | false => rw [jsize.eq_def, serVal_jfalse]; simp
    | true => rw [jsize.eq_def, serVal_jtrue]; simp
  | .jnum i => by
    rw [jsize.eq_def, serVal_jnum]
    cases i with
    | ofNat n =>
      have := serNat_ne_nil n
      have : 1 ≤ (serNat n).length := by
        cases h : serNat n with
        | nil => exact absurd h (serNat_ne_nil n)
        | cons c t => simp
      simpa [serInt] using this
    | negSucc m => simp [serInt]
  | .jstr s => by rw [jsize.eq_def, serVal_jstr]; simp
  | .jarr [] => by rw [jsize.eq_def, serVal_jarr_nil]; simp
  | .jarr (x :: xs) => by
    rw [jsize_jarr_cons, serVal_jarr_cons]
    have := jsizeElems_le_len x xs
    simp only [List.length_cons, List.length_append, List.length_singleton]
    omega
  | .jobj [] => by rw [jsize.eq_def, serVal_jobj_nil]; simp
  | .jobj (kv :: kvs) => by
    rw [jsize_jobj_cons, serVal_jobj_cons]
    have := jsizeMembers_le_len kv kvs
    simp only [List.length_cons, List.length_append, List.length_singleton]
    omega
termination_by v => sizeOf v
decreasing_by all_goals (simp_wf <;> omega)

lemma jsizeElems_le_len : ∀ (x : JsonVal) (xs : List JsonVal),
    jsizeElems x xs ≤ (serElems x xs).length + 1
  | x, [] => by
    rw [jsizeElems_nil, serElems_nil]
    have := jsize_le_len x
    omega
  | x, y :: ys => by
    rw [jsizeElems_cons, serElems_cons]
    have h1 := jsize_le_len x
    have h2 := jsizeElems_le_len y ys
    simp only [List.length_append, List.length_cons]
    omega
termination_by x xs => 1 + sizeOf x + sizeOf xs
decreasing_by all_goals (simp_wf <;> omega)

lemma jsizeMembers_le_len : ∀ (kv : String × JsonVal) (kvs : List (String × JsonVal)),
    jsizeMembers kv kvs ≤ (serMembers kv kvs).length + 1
  | (k, v), [] => by
    rw [jsizeMembers_nil, serMembers_nil, serMember_eq]
    have := jsize_le_len v
    simp only [List.length_cons, List.length_append]
    omega
  | (k, v), kv' :: kvs' => by
    rw [jsizeMembers_cons, serMembers_cons, serMember_eq]
    have h1 := jsize_le_len v
    have h2 := jsizeMembers_le_len kv' kvs'
    simp only [List.length_append, List.length_cons]
    omega
termination_by kv kvs => 1 + sizeOf kv + sizeOf kvs
decreasing_by all_goals (simp_wf <;> omega)

end

/-- The round trip of the JSON encoding: parsing the text produced by
`jsonStringify` recovers exactly the original structured value. -/
theorem parseJson_stringify (v : JsonVal) : parseJson (jsonStringify v) = some v := by
  have hdata : (jsonStringify v).data = serVal v := rfl
  have hlen : (jsonStringify v).length = (serVal v).length := rfl
  have h := (parse_roundtrip ((serVal v).length + 1)).1 v []
    (le_trans (jsize_le_len v) (by omega)) rfl
  rw [List.append_nil] at h
  unfold parseJson
  rw [hlen, hdata, h]

/-! ### The gateway data model (`src/web/src/services/api.ts`) -/

/-- A binary media payload (`Blob`): its MIME type and opaque bytes. -/
structure BlobData where
  type : String
  bytes : List Nat
deriving Repr, DecidableEq

/-- A value passed as the `body` member of `FetchOptions`: either a
`Blob` or a JSON-able JavaScript value (`body?: any`). -/
inductive BodyVal where
  | blob (b : BlobData)
  | js (v : JsonVal)
deriving Repr

/-- JavaScript truthiness of a body value (a `Blob` is an object and
hence always truthy). -/
def bodyTruthy : BodyVal → Bool
  | .blob _ => true
  | .js v => jsTruthy v

/-- The user state (`User.State`) as read by the gateway: the stable
client identifier `userId` and the optional `account` object. -/
structure UserState where
  userId : String
  account : Option JsonVal
deriving Repr

/-- The gateway (`class API`): the locale state and user state received
by the constructor. Both fields are `readonly` in the source; all
operations here are pure, so no instance is ever mutated. -/
structure API where
  locale : Option String
  user : UserState
deriving Repr

/-- JavaScript truthiness of the optional locale string (absent or
empty means falsy). -/
def localeTruthy : Option String → Bool
  | none => false
  | some s => decide (s ≠ "")

/-- The constant `API_PATH = location.origin + '/api/v1'`, parameterized by the
runtime's `location.origin`. -/
def API_PATH (origin : String) : String := origin ++ "/api/v1"

/-- Method `forLocale(locale)`: `new API(locale, this.user)`. -/
def API.forLocale (a : API) (locale : String) : API :=
  { locale := some locale, user := a.user }

/-- Method `getLocalePath()`: `this.locale ? API_PATH + '/' + this.locale :
API_PATH`. -/
def API.getLocalePath (origin : String) (a : API) : String :=
  if localeTruthy a.locale then API_PATH origin ++ "/" ++ a.locale.getD ""
  else API_PATH origin

/-- Method `getClipPath()`: `this.getLocalePath() + '/clips'`. -/
def API.getClipPath (origin : String) (a : API) : String :=
  a.getLocalePath origin ++ "/clips"

/-- A JavaScript header object: ordered key/value pairs. -/
abbrev Headers := List (String × String)

/-- Assignment `obj[k] = v` on a JS object: overwrite the value at an existing key
in place, or append a new key. -/
def hset (m : Headers) (k v : String) : Headers :=
  if (m.lookup k).isSome then m.map fun p => if p.1 = k then (k, v) else p
  else m ++ [(k, v)]

/-- Merge `Object.assign(a, b)`: copy each property of `b` into `a` in
order. -/
def objAssign (a b : Headers) : Headers := b.foldl (fun acc p => hset acc p.1 p.2) a

/-- The `FetchOptions` record of `API.fetch`; absent members are `none`
(an absent `headers` object merges exactly like an empty one). -/
structure FetchOptions where
  method : Option String := none
  isJSON : Option Bool := none
  headers : Headers := []
  body : Option BodyVal := none

/-- The body finally handed to the transport: a binary stream or JSON
text. -/
inductive OutBody where
  | binary (b : BlobData)
  | jsonText (s : String)
deriving Repr

/-- The outgoing HTTP request assembled by `API.fetch` before the
network call (the credentials mode is the fixed literal "same-origin"
in the source and is not modelled further). -/
structure Request where
  method : String
  headers : Headers
  body : Option OutBody
deriving Repr

/-- Test `path.startsWith(origin)`. -/
def jsStartsWith (s pre : String) : Bool := pre.data.isPrefixOf s.data

/-- The default content-type header value set in JSON content-mode. -/
def jsonContentType : String := "application/json; charset=utf-8"

/-- The first half of `API.fetch` (everything before the network call):
`isJSON` defaulting, header assembly (JSON default first, caller
headers merged over it), injection of the anonymous `client_id` header
for same-origin paths without an account, method defaulting, and the
three-way body encoding `body ? (body instanceof Blob ? body :
JSON.stringify(body)) : undefined`. -/
def buildRequest (origin : String) (a : API) (path : String)
    (options : FetchOptions) : Request :=
  let isJSON := options.isJSON.getD true
  let merged :=
    objAssign (if isJSON then [("Content-Type", jsonContentType)] else [])
      options.headers
  let finalHeaders :=
    if jsStartsWith path origin && a.user.account.isNone then
      hset merged "client_id" a.user.userId
    else merged
  { method := options.method.getD "GET",
    headers := finalHeaders,
    body :=
      match options.body with
      | none => none
      | some b =>
        if bodyTruthy b then
          some (match b with
            | .blob d => OutBody.binary d
            | .js v => OutBody.jsonText (jsonStringify v))
        else none }

/-- Modelled from the spec: the well-known key of the persisted session
identifier (`USER_KEY`, imported from the root store, whose source file
is not part of this module); only its identity matters here. -/
def USER_KEY : String := "USER_KEY"

/-- The transport's view of a response: status code, status text, and
the body (readable as text, or parsed as JSON by `response.json()`). -/
structure Response where
  status : Nat
  statusText : String
  bodyText : String
deriving Repr, DecidableEq

/-- A value a dispatch promise can resolve with. -/
inductive DispatchVal where
  | json (v : JsonVal)
  | text (t : String)
  | undef
  | errObj (msg : String)
deriving Repr

/-- A settled promise: resolved with a value, or rejected with an error
whose message is recorded. -/
inductive DispatchOutcome where
  | resolved (v : DispatchVal)
  | rejected (msg : String)
deriving Repr

/-- Side effects on the shared session state performed by one dispatch
call: the keys removed from `localStorage` and the number of
`location.reload()` calls. -/
structure Effects where
  removedKeys : List String
  reloads : Nat
deriving Repr, DecidableEq

/-- No session-state side effects. -/
def noEffects : Effects := { removedKeys := [], reloads := 0 }

/-- The second half of `API.fetch` (response classification, in source
order): status 401 removes `USER_KEY`, reloads and returns `undefined`;
any other status ≥ 400 throws — with message exactly "save_clip_error"
when the status text equals that token, with the raw body text
otherwise; lower statuses resolve with `response.json()` or
`response.text()` according to `isJSON` (a body `response.json()`
cannot parse rejects the promise). -/
def classifyResponse (isJSON : Bool) (r : Response) : Effects × DispatchOutcome :=
  if r.status = 401 then
    ({ removedKeys := [USER_KEY], reloads := 1 }, .resolved .undef)
  else if 400 ≤ r.status then
    if r.statusText = "save_clip_error" then (noEffects, .rejected "save_clip_error")
    else (noEffects, .rejected r.bodyText)
  else
    (noEffects,
      if isJSON then
        match parseJson r.bodyText with
        | some v => .resolved (.json v)
        | none => .rejected "SyntaxError: Unexpected token in JSON"
      else .resolved (.text r.bodyText))

/-- One full dispatch call (`API.fetch`): the request put on the wire
together with the effects and settled outcome determined by the
response. -/
def dispatch (origin : String) (a : API) (path : String) (options : FetchOptions)
    (r : Response) : Request × Effects × DispatchOutcome :=
  (buildRequest origin a path options, classifyResponse (options.isJSON.getD true) r)

/-! ### Endpoint surface -/

/-- UTF-8 bytes of a character. -/
def utf8Bytes (c : Char) : List Nat :=
  let n := c.toNat
  if n < 0x80 then [n]
  else if n < 0x800 then [0xc0 + n / 64, 0x80 + n % 64]
  else if n < 0x10000 then [0xe0 + n / 4096, 0x80 + n / 64 % 64, 0x80 + n % 64]
  else [0xf0 + n / 262144, 0x80 + n / 4096 % 64, 0x80 + n / 64 % 64, 0x80 + n % 64]

/-- Uppercase hexadecimal digit character, as percent-encoding emits. -/
def hexUpper (n : Nat) : Char :=
  if n < 10 then Char.ofNat (48 + n) else Char.ofNat (55 + n)

/-- Characters `encodeURIComponent` leaves unescaped
(`A-Z a-z 0-9 - _ . ! ~ * ( )` and the apostrophe). -/
def uriUnreserved (c : Char) : Bool :=
  let n := c.toNat
  (65 ≤ n && n ≤ 90) || (97 ≤ n && n ≤ 122) || (48 ≤ n && n ≤ 57) ||
    (n == 45) || (n == 95) || (n == 46) || (n == 33) || (n == 126) ||
    (n == 42) || (n == 39) || (n == 40) || (n == 41)

/-- Model of `encodeURIComponent`: unreserved characters pass through, all others
are percent-encoded byte-wise in UTF-8. -/
def encodeURIComponent (s : String) : String :=
  ⟨s.data.foldr (fun c acc =>
    if uriUnreserved c then c :: acc
    else (utf8Bytes c).foldr
      (fun b acc2 => '%' :: hexUpper (b / 16) :: hexUpper (b % 16) :: acc2) acc) []⟩

/-- The identity outcome transformation of an endpoint that calls
`this.fetch(...)` bare, with no `.then`/`.catch` chain. -/
def idPost : DispatchOutcome → DispatchOutcome := id

mutual

/-- JavaScript string coercion `String(v)` of a JSON value, as
`JSON.parse` applies to a non-string argument. -/
def jsCoerce : JsonVal → String
  | .jnull => "null"
  | .jbool true => "true"
  | .jbool false => "false"
  | .jnum n => ⟨serInt n⟩
  | .jstr s => s
  | .jarr xs => String.intercalate "," (jsCoerceList xs)
  | .jobj _ => "[object Object]"
termination_by v => sizeOf v
decreasing_by all_goals (simp_wf <;> omega)

/-- Element-wise coercion of an array (`null` elements print empty). -/
def jsCoerceList : List JsonVal → List String
  | [] => []
  | .jnull :: xs => "" :: jsCoerceList xs
  | x :: xs => jsCoerce x :: jsCoerceList xs
termination_by xs => sizeOf xs
decreasing_by all_goals (simp_wf <;> omega)

end

/-- The string `JSON.parse` sees when handed a settled dispatch value. -/
def dispatchValToString : DispatchVal → String
  | .text t => t
  | .json j => jsCoerce j
  | .undef => "undefined"
  | .errObj m => "Error: " ++ m

/-- Chain `.then(body => JSON.parse(body))` of `saveAvatar`: rejections pass
through; a resolved value is parsed (after JS string coercion), and a
parse failure rejects with a `SyntaxError`. -/
def jsonParsePost : DispatchOutcome → DispatchOutcome
  | .rejected e => .rejected e
  | .resolved v =>
    match parseJson (dispatchValToString v) with
    | some j => .resolved (.json j)
    | none => .rejected "SyntaxError: Unexpected token in JSON"

/-- Chain `.then(body => body).catch(err => err)` of `saveAvatarClip`:
resolved values pass through unchanged, and a rejection is converted
into a resolution carrying the error value. -/
def catchReturnPost : DispatchOutcome → DispatchOutcome
  | .resolved v => .resolved v
  | .rejected e => .resolved (.errObj e)

/-- Builtin `Object.entries` over a decoded value (objects list their members;
arrays and strings list index/value pairs; other primitives have no
enumerable own properties; `null` raises `TypeError`). -/
def objectEntries : JsonVal → Option JsonVal
  | .jobj kvs => some (.jarr (kvs.map fun kv => .jarr [.jstr kv.1, kv.2]))
  | .jarr xs => some (.jarr (((List.range xs.length).zip xs).map
      fun p => .jarr [.jstr (Nat.repr p.1), p.2]))
  | .jstr s => some (.jarr (((List.range s.data.length).zip s.data).map
      fun p => .jarr [.jstr (Nat.repr p.1), .jstr ⟨[p.2]⟩]))
  | .jnull => none
  | _ => some (.jarr [])

/-- Chain `Object.entries(await this.fetch(...))` of
`fetchCrossLocaleMessages`: rejections of the awaited call re-throw
unchanged. -/
def entriesPost : DispatchOutcome → DispatchOutcome
  | .rejected e => .rejected e
  | .resolved v =>
    match v with
    | .json j =>
      match objectEntries j with
      | some e => .resolved (.json e)
      | none => .rejected "TypeError"
    | .text t =>
      match objectEntries (.jstr t) with
      | some e => .resolved (.json e)
      | none => .rejected "TypeError"
    | .undef => .rejected "TypeError"
    | .errObj _ => .resolved (.json (.jarr []))

/-- One endpoint method's contribution: the path and options it hands to
`this.fetch`, and the transformation its `.then`/`.catch` chain applies
to the settled outcome. -/
structure EndpointCall where
  path : String
  opts : FetchOptions
  post : DispatchOutcome → DispatchOutcome := idPost

/-- The request a gateway puts on the wire for an endpoint call. -/
def requestOf (origin : String) (a : API) (c : EndpointCall) : Request :=
  buildRequest origin a c.path c.opts

def API.fetchRandomSentences (origin : String) (a : API) (count : Nat := 1) : EndpointCall :=
  { path := a.getLocalePath origin ++ "/sentences?count=" ++ toString count, opts := {} }

def API.fetchRandomClips (origin : String) (a : API) (count : Nat := 1) : EndpointCall :=
  { path := a.getClipPath origin ++ "?count=" ++ toString count, opts := {} }

def API.uploadClip (origin : String) (a : API) (blob : BlobData)
    (sentenceId sentence : String) : EndpointCall :=
  { path := a.getClipPath origin,
    opts := { method := some "POST",
              headers := [("Content-Type", blob.type),
                          ("sentence", encodeURIComponent sentence),
                          ("sentence_id", sentenceId)],
              body := some (.blob blob) } }

def API.saveVote (origin : String) (a : API) (id : String) (isValid : Bool) : EndpointCall :=
  { path := a.getClipPath origin ++ "/" ++ id ++ "/votes",
    opts := { method := some "POST",
              body := some (.js (.jobj [("isValid", .jbool isValid)])) } }

def API.fetchValidatedHours (origin : String) (a : API) : EndpointCall :=
  { path := a.getClipPath origin ++ "/validated_hours", opts := {} }

def API.fetchDailyClipsCount (origin : String) (a : API) : EndpointCall :=
  { path := a.getClipPath origin ++ "/daily_count", opts := {} }

def API.fetchDailyVotesCount (origin : String) (a : API) : EndpointCall :=
  { path := a.getClipPath origin ++ "/votes/daily_count", opts := {} }

def API.fetchLocaleMessages (origin : String) (a : API) (locale : String) : EndpointCall :=
  { path := "/locales/" ++ locale ++ "/messages.ftl", opts := { isJSON := some false } }

def API.fetchCrossLocaleMessages (origin : String) (a : API) : EndpointCall :=
  { path := "/cross-locale-messages.json", opts := {}, post := entriesPost }

def API.fetchRequestedLanguages (origin : String) (a : API) : EndpointCall :=
  { path := API_PATH origin ++ "/requested_languages", opts := {} }

def API.requestLanguage (origin : String) (a : API) (language : String) : EndpointCall :=
  { path := API_PATH origin ++ "/requested_languages",
    opts := { method := some "POST",
              body := some (.js (.jobj [("language", .jstr language)])) } }

def API.fetchLanguageStats (origin : String) (a : API) : EndpointCall :=
  { path := API_PATH origin ++ "/language_stats", opts := {} }

/-- JS template-string interpolation of a possibly-undefined value. -/
def jsTemplate : Option String → String
  | some s => s
  | none => "undefined"

def API.fetchDocument (origin : String) (a : API) (name : String) : EndpointCall :=
  { path := "/" ++ name ++ "/" ++ jsTemplate a.locale ++ ".html",
    opts := { isJSON := some false } }

def API.skipSentence (origin : String) (a : API) (id : String) : EndpointCall :=
  { path := API_PATH origin ++ "/skipped_sentences/" ++ id,
    opts := { method := some "POST" } }

/-- The optional locale segment `locale ? '/' + locale : ''` several
endpoints splice into their paths. -/
def localeSeg (locale : Option String) : String :=
  if localeTruthy locale then "/" ++ locale.getD "" else ""

def API.fetchClipsStats (origin : String) (a : API)
    (locale : Option String := none) : EndpointCall :=
  { path := API_PATH origin ++ localeSeg locale ++ "/clips/stats", opts := {} }

def API.fetchClipVoices (origin : String) (a : API)
    (locale : Option String := none) : EndpointCall :=
  { path := API_PATH origin ++ localeSeg locale ++ "/clips/voices", opts := {} }

def API.fetchContributionActivity (origin : String) (a : API) (from_ : String)
    (locale : Option String := none) : EndpointCall :=
  { path := API_PATH origin ++ localeSeg locale ++ "/contribution_activity?from=" ++ from_,
    opts := {} }

def API.fetchUserClients (origin : String) (a : API) : EndpointCall :=
  { path := API_PATH origin ++ "/user_clients", opts := {} }

def API.fetchAccount (origin : String) (a : API) : EndpointCall :=
  { path := API_PATH origin ++ "/user_client", opts := {} }

def API.saveAccount (origin : String) (a : API) (data : JsonVal) : EndpointCall :=
  { path := API_PATH origin ++ "/user_client",
    opts := { method := some "PATCH", body := some (.js data) } }

def API.subscribeToNewsletter (origin : String) (a : API) (email : String) : EndpointCall :=
  { path := API_PATH origin ++ "/newsletter/" ++ email,
    opts := { method := some "POST" } }

def API.saveAvatar (origin : String) (a : API) (type_ : String)
    (file : Option BlobData := none) : EndpointCall :=
  { path := API_PATH origin ++ "/user_client/avatar/" ++ type_,
    opts := { method := some "POST", isJSON := some false, body := file.map .blob },
    post := jsonParsePost }

def API.saveAvatarClip (origin : String) (a : API) (blob : BlobData) : EndpointCall :=
  { path := API_PATH origin ++ "/user_client/avatar_clip",
    opts := { method := some "POST",
              headers := [("Content-Type", blob.type)],
              body := some (.blob blob) },
    post := catchReturnPost }

def API.fetchAvatarClip (origin : String) (a : API) : EndpointCall :=
  { path := API_PATH origin ++ "/user_client/avatar_clip", opts := {} }

def API.fetchLeaderboard (origin : String) (a : API) (type_ : String)
    (cursor : Option (Int × Int) := none) : EndpointCall :=
  { path := a.getClipPath origin ++ (if type_ = "clip" then "" else "/votes")
      ++ "/leaderboard"
      ++ (match cursor with
          | some c => "?cursor=" ++ jsonStringify (.jarr [.jnum c.1, .jnum c.2])
          | none => ""),
    opts := {} }

def API.createGoal (origin : String) (a : API) (body : JsonVal) : EndpointCall :=
  { path := API_PATH origin ++ "/user_client/goals",
    opts := { method := some "POST", body := some (.js body) } }

def API.fetchGoals (origin : String) (a : API)
    (locale : Option String := none) : EndpointCall :=
  { path := API_PATH origin ++ "/user_client" ++ localeSeg locale ++ "/goals",
    opts := {} }

def API.claimAccount (origin : String) (a : API) : EndpointCall :=
  { path := API_PATH origin ++ "/user_clients/" ++ a.user.userId ++ "/claim",
    opts := { method := some "POST" } }

def API.saveHasDownloaded (origin : String) (a : API) (email : String) : EndpointCall :=
  { path := a.getLocalePath origin ++ "/downloaders/" ++ email,
    opts := { method := some "POST" } }

def API.seenAwards (origin : String) (a : API) (kind : String := "award") : EndpointCall :=
  { path := API_PATH origin ++ "/user_client/awards/seen"
      ++ (if kind = "notification" then "?notification" else ""),
    opts := { method := some "POST" } }

def API.report (origin : String) (a : API) (body : JsonVal) : EndpointCall :=
  { path := API_PATH origin ++ "/reports",
    opts := { method := some "POST", body := some (.js body) } }

/-- Sample state used only to tabulate the endpoint surface below. -/
def sampleAPI : API := { locale := some "en", user := { userId := "id", account := none } }

/-- A sample blob for the tabulation. -/
def sampleBlob : BlobData := { type := "audio/ogg", bytes := [] }

/-- Every endpoint method of the class, paired with the outcome
transformation of its `.then`/`.catch` chain (taken at representative
arguments; no method's chain depends on its arguments). -/
def endpointCatalog : List (String × (DispatchOutcome → DispatchOutcome)) :=
  [("fetchRandomSentences", (API.fetchRandomSentences "o" sampleAPI).post),
   ("fetchRandomClips", (API.fetchRandomClips "o" sampleAPI).post),
   ("uploadClip", (API.uploadClip "o" sampleAPI sampleBlob "sid" "text").post),
   ("saveVote", (API.saveVote "o" sampleAPI "id" true).post),
   ("fetchValidatedHours", (API.fetchValidatedHours "o" sampleAPI).post),
   ("fetchDailyClipsCount", (API.fetchDailyClipsCount "o" sampleAPI).post),
   ("fetchDailyVotesCount", (API.fetchDailyVotesCount "o" sampleAPI).post),
   ("fetchLocaleMessages", (API.fetchLocaleMessages "o" sampleAPI "fr").post),
   ("fetchCrossLocaleMessages", (API.fetchCrossLocaleMessages "o" sampleAPI).post),
   ("fetchRequestedLanguages", (API.fetchRequestedLanguages "o" sampleAPI).post),
   ("requestLanguage", (API.requestLanguage "o" sampleAPI "eo").post),
   ("fetchLanguageStats", (API.fetchLanguageStats "o" sampleAPI).post),
   ("fetchDocument", (API.fetchDocument "o" sampleAPI "terms").post),
   ("skipSentence", (API.skipSentence "o" sampleAPI "s1").post),
   ("fetchClipsStats", (API.fetchClipsStats "o" sampleAPI).post),
   ("fetchClipVoices", (API.fetchClipVoices "o" sampleAPI).post),
   ("fetchContributionActivity", (API.fetchContributionActivity "o" sampleAPI "you").post),
   ("fetchUserClients", (API.fetchUserClients "o" sampleAPI).post),
   ("fetchAccount", (API.fetchAccount "o" sampleAPI).post),
   ("saveAccount", (API.saveAccount "o" sampleAPI (.jobj [])).post),
   ("subscribeToNewsletter", (API.subscribeToNewsletter "o" sampleAPI "e@x").post),
   ("saveAvatar", (API.saveAvatar "o" sampleAPI "default").post),
   ("saveAvatarClip", (API.saveAvatarClip "o" sampleAPI sampleBlob).post),
   ("fetchAvatarClip", (API.fetchAvatarClip "o" sampleAPI).post),
   ("fetchLeaderboard", (API.fetchLeaderboard "o" sampleAPI "clip").post),
   ("createGoal", (API.createGoal "o" sampleAPI (.jobj [])).post),
   ("fetchGoals", (API.fetchGoals "o" sampleAPI).post),
   ("claimAccount", (API.claimAccount "o" sampleAPI).post),
   ("saveHasDownloaded", (API.saveHasDownloaded "o" sampleAPI "e@x").post),
   ("seenAwards", (API.seenAwards "o" sampleAPI).post),
   ("report", (API.report "o" sampleAPI (.jobj [])).post)]

/-! ### Header-object lemmas -/

lemma lookup_none_of_keys_ne {l : Headers} {k : String}
    (h : ∀ p ∈ l, p.1 ≠ k) : l.lookup k = none := by
  induction l with
  | nil => rfl
  | cons p l ih =>
    obtain ⟨k', v'⟩ := p
    have hk : k ≠ k' := fun hh => (h (k', v') (by simp)) hh.symm
    simp only [List.lookup_cons, beq_false_of_ne hk]
    exact ih fun q hq => h q (by simp [hq])

lemma lookup_map_update {m : Headers} {k : String} (v : String)
    (h : (m.lookup k).isSome) :
    ((m.map fun p => if p.1 = k then (k, v) else p).lookup k) = some v := by
  induction m with
  | nil => simp at h
  | cons p m ih =>
    obtain ⟨k', v'⟩ := p
    by_cases hp : k' = k
    · subst hp
      simp only [List.map_cons]
      simp [List.lookup_cons]
    · have hk : k ≠ k' := fun hh => hp hh.symm
      have h' : (m.lookup k).isSome := by
        simpa only [List.lookup_cons, beq_false_of_ne hk] using h
      simp only [List.map_cons, if_neg (show ¬((k', v').1 = k) from hp)]
      simp only [List.lookup_cons, beq_false_of_ne hk]
      exact ih h'

lemma lookup_map_update_ne {m : Headers} {k k' : String} (v : String) (h : k' ≠ k) :
    ((m.map fun p => if p.1 = k then (k, v) else p).lookup k') = m.lookup k' := by
  induction m with
  | nil => rfl
  | cons p m ih =>
    obtain ⟨k₀, v₀⟩ := p
    simp only [List.map_cons]
    by_cases h0 : k₀ = k
    · subst h0
      simp [List.lookup_cons, beq_false_of_ne h, ih]
    · simp only [if_neg (show ¬((k₀, v₀).1 = k) from h0)]
      by_cases h1 : k' = k₀
      · subst h1; simp [List.lookup_cons]
      · simp only [List.lookup_cons, beq_false_of_ne h1]
        exact ih

lemma lookup_append_single {m : Headers} {k : String} (v : String)
    (h : m.lookup k = none) : (m ++ [(k, v)]).lookup k = some v := by
  induction m with
  | nil => simp [List.lookup_cons]
  | cons p m ih =>
    obtain ⟨k', v'⟩ := p
    by_cases hk : k = k'
    · subst hk; simp [List.lookup_cons] at h
    · have h' : m.lookup k = none := by
        simpa only [List.lookup_cons, beq_false_of_ne hk] using h
      simp only [List.cons_append, List.lookup_cons, beq_false_of_ne hk]
      exact ih h'

lemma lookup_append_single_ne {m : Headers} {k k' : String} (v : String) (h : k' ≠ k) :
    (m ++ [(k, v)]).lookup k' = m.lookup k' := by
  induction m with
  | nil => simp [List.lookup_cons, beq_false_of_ne h]
  | cons p m ih =>
    obtain ⟨k₀, v₀⟩ := p
    by_cases h1 : k' = k₀
    · subst h1; simp [List.lookup_cons]
    · simp only [List.cons_append, List.lookup_cons, beq_false_of_ne h1]
      exact ih

lemma lookup_hset_self (m : Headers) (k v : String) : (hset m k v).lookup k = some v := by
  unfold hset
  by_cases h : (m.lookup k).isSome
  · rw [if_pos h]
    exact lookup_map_update v h
  · rw [if_neg h]
    exact lookup_append_single v (by
      cases hm : m.lookup k with
      | none => rfl
      | some w => exact absurd (by simp [hm]) h)

lemma lookup_hset_ne (m : Headers) {k k' : String} (v : String) (h : k' ≠ k) :
    (hset m k v).lookup k' = m.lookup k' := by
  unfold hset
  split
  · exact lookup_map_update_ne v h
  · exact lookup_append_single_ne v h

lemma lookup_objAssign_of_keys_ne {b : Headers} {k : String} :
    ∀ (a : Headers), (∀ p ∈ b, p.1 ≠ k) → (objAssign a b).lookup k = a.lookup k := by
  induction b with
  | nil => intro a _; rfl
  | cons p b ih =>
    intro a h
    obtain ⟨k', v'⟩ := p
    have hne : k ≠ k' := fun hh => (h (k', v') (by simp)) hh.symm
    have hstep : objAssign a ((k', v') :: b) = objAssign (hset a k' v') b := rfl
    rw [hstep, ih (hset a k' v') fun q hq => h q (by simp [hq]),
      lookup_hset_ne a v' hne]

lemma lookup_objAssign {b : Headers} {k : String} :
    ∀ (a : Headers), (b.map Prod.fst).Nodup →
      (objAssign a b).lookup k = (b.lookup k).or (a.lookup k) := by
  induction b with
  | nil => intro a _; rfl
  | cons p b ih =>
    intro a hnd
    obtain ⟨k', v'⟩ := p
    simp only [List.map_cons, List.nodup_cons] at hnd
    obtain ⟨hk', hnd'⟩ := hnd
    have hstep : objAssign a ((k', v') :: b) = objAssign (hset a k' v') b := rfl
    rw [hstep, ih (hset a k' v') hnd']
    by_cases hkk : k = k'
    · subst hkk
      have hb : b.lookup k = none :=
        lookup_none_of_keys_ne fun q hq hh => hk' (by rw [← hh]; exact List.mem_map_of_mem _ hq)
      rw [hb, lookup_hset_self]
      simp [List.lookup_cons]
    · rw [lookup_hset_ne a v' hkk]
      simp [List.lookup_cons, beq_false_of_ne hkk]

/-! ### Request-projection lemmas -/

lemma buildRequest_headers (origin : String) (a : API) (path : String) (o : FetchOptions) :
    (buildRequest origin a path o).headers =
      if jsStartsWith path origin && a.user.account.isNone then
        hset (objAssign
            (if o.isJSON.getD true then [("Content-Type", jsonContentType)] else [])
            o.headers)
          "client_id" a.user.userId
      else
        objAssign (if o.isJSON.getD true then [("Content-Type", jsonContentType)] else [])
          o.headers := rfl

lemma buildRequest_method (origin : String) (a : API) (path : String) (o : FetchOptions) :
    (buildRequest origin a path o).method = o.method.getD "GET" := rfl

lemma buildRequest_body (origin : String) (a : API) (path : String) (o : FetchOptions) :
    (buildRequest origin a path o).body =
      match o.body with
      | none => none
      | some b =>
        if bodyTruthy b then
          some (match b with
            | .blob d => OutBody.binary d
            | .js v => OutBody.jsonText (jsonStringify v))
        else none := rfl

/-- In JSON content-mode the final request's content-type is the
caller's when the caller supplied one, and the JSON default otherwise
(the `client_id` injection never touches the "Content-Type" key). -/
lemma final_content_type (origin : String) (a : API) (path : String) (o : FetchOptions)
    (hjson : o.isJSON.getD true = true) (hnd : (o.headers.map Prod.fst).Nodup) :
    (buildRequest origin a path o).headers.lookup "Content-Type"
      = (o.headers.lookup "Content-Type").or (some jsonContentType) := by
  have hne : ("Content-Type" : String) ≠ "client_id" := by decide
  rw [buildRequest_headers, hjson]
  have hmerged :
      (objAssign (if true then [("Content-Type", jsonContentType)] else [])
          o.headers).lookup "Content-Type"
        = (o.headers.lookup "Content-Type").or (some jsonContentType) := by
    rw [lookup_objAssign _ hnd]
    simp [List.lookup_cons]
  by_cases hcond : (jsStartsWith path origin && a.user.account.isNone) = true
  · rw [if_pos hcond, lookup_hset_ne _ _ hne, hmerged]
  · rw [if_neg hcond, hmerged]

/-! ### Claim theorems -/

/-- C1: for every dispatch call whose response has status 401, the
session-identifier key `USER_KEY` is removed from the persisted store
and a page reload is triggered — each exactly once — and the call
resolves with `undefined`: no decoded value is handed back and no
catchable error is thrown. -/
theorem c1_session_expiry (origin : String) (a : API) (path : String)
    (o : FetchOptions) (r : Response) (h401 : r.status = 401) :
    (dispatch origin a path o r).2 =
      ({ removedKeys := [USER_KEY], reloads := 1 }, .resolved .undef) := by
  unfold dispatch classifyResponse
  simp [h401]

theorem c1_session_expiry_witness :
    (dispatch "https://o" sampleAPI "https://o/api/v1/user_client" {}
        { status := 401, statusText := "Unauthorized", bodyText := "" }).2 =
      ({ removedKeys := [USER_KEY], reloads := 1 }, .resolved .undef) :=
  c1_session_expiry "https://o" sampleAPI "https://o/api/v1/user_client" {} _ rfl

/-- C2: for every dispatch call whose response has status ≥ 400 other
than 401, the call rejects: with message exactly "save_clip_error" when
the server's status text equals that token (whatever the body says), and
with the full raw body text otherwise. The token is detected on the
status-text field before the generic branch runs. -/
theorem c2_error_classification (origin : String) (a : API) (path : String)
    (o : FetchOptions) (r : Response) (hge : 400 ≤ r.status) (hne : r.status ≠ 401) :
    (r.statusText = "save_clip_error" →
        (dispatch origin a path o r).2 = (noEffects, .rejected "save_clip_error")) ∧
      (r.statusText ≠ "save_clip_error" →
        (dispatch origin a path o r).2 = (noEffects, .rejected r.bodyText)) := by
  constructor <;> intro hst <;> unfold dispatch classifyResponse <;> simp [hne, hge, hst]

theorem c2_error_classification_witness :
    (dispatch "https://o" sampleAPI "p" {}
        { status := 404, statusText := "save_clip_error", bodyText := "ignored body" }).2
      = (noEffects, .rejected "save_clip_error") ∧
    (dispatch "https://o" sampleAPI "p" {}
        { status := 500, statusText := "Internal Server Error",
          bodyText := "internal error" }).2
      = (noEffects, .rejected "internal error") :=
  ⟨(c2_error_classification "https://o" sampleAPI "p" {} _ (by decide) (by decide)).1 rfl,
   (c2_error_classification "https://o" sampleAPI "p" {} _ (by decide) (by decide)).2
     (by decide)⟩

/-- A gateway whose user has an authenticated account, used as a
witness instance. -/
def sampleAccountAPI : API :=
  { locale := some "en", user := { userId := "id2", account := some (.jobj []) } }

/-- C3: on a same-origin path, the request carries the anonymous
`client_id` header (set to the user's stable identifier) exactly when no
account is present; with an account, dispatch adds no such header, so a
call whose caller-supplied headers lack the key carries none. -/
theorem c3_client_id_header (origin : String) (a : API) (path : String) (o : FetchOptions) :
    (a.user.account = none → jsStartsWith path origin = true →
      (buildRequest origin a path o).headers.lookup "client_id" = some a.user.userId) ∧
    (∀ acct, a.user.account = some acct → (∀ p ∈ o.headers, p.1 ≠ "client_id") →
      (buildRequest origin a path o).headers.lookup "client_id" = none) := by
  constructor
  · intro hacc hpre
    have hcond : (jsStartsWith path origin && a.user.account.isNone) = true := by
      simp [hpre, hacc]
    rw [buildRequest_headers, if_pos hcond]
    exact lookup_hset_self _ _ _
  · intro acct hacc hno
    have hcond : ¬((jsStartsWith path origin && a.user.account.isNone) = true) := by
      simp [hacc]
    rw [buildRequest_headers, if_neg hcond]
    rw [lookup_objAssign_of_keys_ne _ hno]
    cases hj : o.isJSON.getD true <;> simp [List.lookup_cons]

theorem c3_client_id_header_witness :
    (buildRequest "https://o" sampleAPI "https://o/api/v1/sentences" {}).headers.lookup
        "client_id" = some "id" ∧
    (buildRequest "https://o" sampleAccountAPI "https://o/api/v1/sentences" {}).headers.lookup
        "client_id" = none :=
  ⟨(c3_client_id_header "https://o" sampleAPI "https://o/api/v1/sentences" {}).1 rfl
      (by decide),
   (c3_client_id_header "https://o" sampleAccountAPI "https://o/api/v1/sentences" {}).2
      (.jobj []) rfl (by simp)⟩

/-- C4: the outgoing body is selected by exactly one of three mutually
exclusive cases: no body → the body field is omitted; a `Blob` → passed
through unmodified as a binary stream; any other truthy value →
serialized to JSON text whose parse recovers exactly the structured
input. -/
theorem c4_body_encoding (origin : String) (a : API) (path : String) (o : FetchOptions) :
    (o.body = none → (buildRequest origin a path o).body = none) ∧
    (∀ d, o.body = some (.blob d) →
      (buildRequest origin a path o).body = some (.binary d)) ∧
    (∀ v, o.body = some (.js v) → jsTruthy v = true →
      (buildRequest origin a path o).body = some (.jsonText (jsonStringify v)) ∧
        parseJson (jsonStringify v) = some v) := by
  refine ⟨?_, ?_, ?_⟩
  · intro h
    rw [buildRequest_body, h]
  · intro d h
    rw [buildRequest_body, h]
    rfl
  · intro v h ht
    refine ⟨?_, parseJson_stringify v⟩
    rw [buildRequest_body, h]
    simp [bodyTruthy, ht]

theorem c4_body_encoding_witness :
    (buildRequest "https://o" sampleAPI "p"
        { body := some (.js (.jobj [("isValid", .jbool true)])) }).body
      = some (.jsonText (jsonStringify (.jobj [("isValid", .jbool true)]))) ∧
    parseJson (jsonStringify (.jobj [("isValid", .jbool true)]))
      = some (.jobj [("isValid", .jbool true)]) :=
  (c4_body_encoding "https://o" sampleAPI "p"
      { body := some (.js (.jobj [("isValid", .jbool true)])) }).2.2
    (.jobj [("isValid", .jbool true)]) rfl rfl

/-- C10: a body value that is present but falsy (`false`, `0`, the
empty string) produces a request with no body at all, exactly like an
absent body — it is not JSON-serialized. -/
theorem c10_falsy_body_omitted (origin : String) (a : API) (path : String)
    (o : FetchOptions) (v : JsonVal) (hb : o.body = some (.js v))
    (hf : jsTruthy v = false) :
    (buildRequest origin a path o).body = none := by
  rw [buildRequest_body, hb]
  simp [bodyTruthy, hf]

theorem c10_falsy_body_omitted_witness :
    (buildRequest "https://o" sampleAPI "p" { body := some (.js (.jbool false)) }).body
        = none ∧
    (buildRequest "https://o" sampleAPI "p" { body := some (.js (.jnum 0)) }).body = none ∧
    (buildRequest "https://o" sampleAPI "p" { body := some (.js (.jstr "")) }).body = none :=
  ⟨c10_falsy_body_omitted "https://o" sampleAPI "p" _ (.jbool false) rfl rfl,
   c10_falsy_body_omitted "https://o" sampleAPI "p" _ (.jnum 0) rfl (by decide),
   c10_falsy_body_omitted "https://o" sampleAPI "p" _ (.jstr "") rfl (by decide)⟩

/-- C5: in JSON content-mode the JSON content-type default is set before
the caller's headers are merged, and on a key collision the caller's
value wins; in particular `uploadClip` (binary body, caller-supplied
content-type) puts the blob's own type, not the JSON default, on the
wire. -/
theorem c5_content_type_merge (origin : String) (a : API) (path : String) (o : FetchOptions)
    (hjson : o.isJSON.getD true = true) (hnd : (o.headers.map Prod.fst).Nodup) :
    ((buildRequest origin a path o).headers.lookup "Content-Type"
        = (o.headers.lookup "Content-Type").or (some jsonContentType)) ∧
    (∀ blob sentenceId sentence,
      (requestOf origin a (API.uploadClip origin a blob sentenceId sentence)).headers.lookup
          "Content-Type" = some blob.type) := by
  constructor
  · exact final_content_type origin a path o hjson hnd
  · intro blob sentenceId sentence
    have h := final_content_type origin a (a.getClipPath origin)
      (API.uploadClip origin a blob sentenceId sentence).opts rfl
      (by simp [API.uploadClip] <;> decide)
    rw [show (API.uploadClip origin a blob sentenceId sentence).opts.headers.lookup
          "Content-Type" = some blob.type by simp [API.uploadClip, List.lookup_cons]] at h
    exact h

theorem c5_content_type_merge_witness :
    ((buildRequest "https://o" sampleAPI "p"
        { headers := [("Content-Type", "text/plain")] }).headers.lookup "Content-Type"
      = some "text/plain") ∧
    ((requestOf "https://o" sampleAPI
        (API.uploadClip "https://o" sampleAPI sampleBlob "s1" "hello")).headers.lookup
          "Content-Type" = some "audio/ogg") := by
  constructor
  · have h := (c5_content_type_merge "https://o" sampleAPI "p"
      { headers := [("Content-Type", "text/plain")] } rfl (by decide)).1
    simpa [List.lookup_cons] using h
  · exact (c5_content_type_merge "https://o" sampleAPI "p" {} rfl (by decide)).2
      sampleBlob "s1" "hello"

/-- C6: the locale-scoped root is the API root extended with "/" and the
locale when one is set, and the API root unchanged otherwise; with
locale "fr", fetching 3 random sentences issues a GET whose target is
`<origin>/api/v1/fr/sentences?count=3`. -/
theorem c6_locale_scoped_paths (origin : String) (a : API) :
    (∀ l, a.locale = some l → l ≠ "" →
      a.getLocalePath origin = API_PATH origin ++ "/" ++ l) ∧
    (localeTruthy a.locale = false → a.getLocalePath origin = API_PATH origin) ∧
    (∀ u : UserState,
      (API.fetchRandomSentences origin { locale := some "fr", user := u } 3).path
          = origin ++ "/api/v1/fr/sentences?count=3" ∧
      (requestOf origin { locale := some "fr", user := u }
          (API.fetchRandomSentences origin { locale := some "fr", user := u } 3)).method
        = "GET") := by
  refine ⟨?_, ?_, ?_⟩
  · intro l hl hne
    simp [API.getLocalePath, localeTruthy, hl, hne]
  · intro hf
    simp [API.getLocalePath, hf]
  · intro u
    constructor
    · show (({ locale := some "fr", user := u } : API).getLocalePath origin
          ++ "/sentences?count=" ++ toString 3) = origin ++ "/api/v1/fr/sentences?count=3"
      have hloc : ({ locale := some "fr", user := u } : API).getLocalePath origin
          = origin ++ "/api/v1" ++ "/" ++ "fr" := by
        simp [API.getLocalePath, localeTruthy, API_PATH]
      rw [hloc]
      simp only [String.append_assoc]
      exact congrArg (origin ++ ·) (by decide)
    · rfl

theorem c6_locale_scoped_paths_witness :
    (API.fetchRandomSentences "https://o"
        { locale := some "fr", user := { userId := "id", account := none } } 3).path
      = "https://o/api/v1/fr/sentences?count=3" :=
  ((c6_locale_scoped_paths "https://o"
      { locale := some "fr", user := { userId := "id", account := none } }).2.2
    { userId := "id", account := none }).1

/-- C7: re-scoping via `forLocale` builds a new gateway that shares the
original's user identity and carries the new locale; the embedding is
pure, so the original instance's fields are untouched (stated by the
last conjunct, which pins the original record to its own field
values). -/
theorem c7_forLocale_preserves_user (a : API) (l : String) :
    (a.forLocale l).user = a.user ∧ (a.forLocale l).locale = some l ∧
      a = { locale := a.locale, user := a.user } :=
  ⟨rfl, rfl, rfl⟩

/-- C8: among all endpoint methods, exactly the one named
`saveAvatarClip` swallows dispatch failures (resolving with the error
value); every other method passes a rejection through unchanged. -/
theorem c8_single_swallowing_endpoint :
    (∀ np ∈ endpointCatalog,
      (np.1 = "saveAvatarClip" →
        ∀ e, np.2 (.rejected e) = .resolved (.errObj e)) ∧
      (np.1 ≠ "saveAvatarClip" → ∀ e, np.2 (.rejected e) = .rejected e)) ∧
    (endpointCatalog.map Prod.fst).count "saveAvatarClip" = 1 := by
  constructor
  · intro np hnp
    fin_cases hnp <;>
      first
        | exact ⟨fun h => absurd h (by decide), fun _ e => rfl⟩
        | exact ⟨fun _ e => rfl, fun h => absurd rfl h⟩
  · rfl

theorem c8_single_swallowing_endpoint_witness :
    (API.saveAvatarClip "o" sampleAPI sampleBlob).post (.rejected "boom")
        = .resolved (.errObj "boom") ∧
    (API.saveVote "o" sampleAPI "c1" true).post (.rejected "boom") = .rejected "boom" := by
  constructor
  · exact (c8_single_swallowing_endpoint.1
      ("saveAvatarClip", (API.saveAvatarClip "o" sampleAPI sampleBlob).post)
      (by repeat first | exact List.Mem.head _ | apply List.Mem.tail)).1 rfl "boom"
  · exact (c8_single_swallowing_endpoint.1
      ("saveVote", (API.saveVote "o" sampleAPI "c1" true).post)
      (by repeat first | exact List.Mem.head _ | apply List.Mem.tail)).2 (by decide) "boom"

/-- C9: the `client_id` assignment happens after the header merge, so
when it applies (same-origin path, no account) it overwrites a
caller-supplied "client_id" header — the one exception to
caller-headers-win. -/
theorem c9_client_id_overwrites_caller (origin : String) (a : API) (path : String)
    (o : FetchOptions) (w : String) (hacc : a.user.account = none)
    (hpre : jsStartsWith path origin = true)
    (hw : o.headers.lookup "client_id" = some w) :
    (buildRequest origin a path o).headers.lookup "client_id" = some a.user.userId := by
  have hcond : (jsStartsWith path origin && a.user.account.isNone) = true := by
    simp [hpre, hacc]
  rw [buildRequest_headers, if_pos hcond]
  exact lookup_hset_self _ _ _

theorem c9_client_id_overwrites_caller_witness :
    (buildRequest "https://o" sampleAPI "https://o/api/v1/x"
        { headers := [("client_id", "spoofed")] }).headers.lookup "client_id"
      = some "id" :=
  c9_client_id_overwrites_caller "https://o" sampleAPI "https://o/api/v1/x"
    { headers := [("client_id", "spoofed")] } "spoofed" rfl (by decide) (by decide)

end VoiceWeb
